import Mathlib

/-!
Shallow embedding of the MT5→cTrader copy-trading bridge core
(symbol mapping, price/volume quantization, risk sizing, close
proportionality, ingress dedup, correlation store, deferred SL/TP),
translated from the repository's Python sources, together with proofs
that settle the specification claims.

Numeric conventions: Python floats are modelled as exact rationals (ℚ)
and Python's builtin `round` (banker's rounding, half to even) as
`pyRound` below.  Python dicts are modelled as functions into `Option`.
-/

namespace Bridge

/-- Python's builtin `round` to an integer: round half to even. -/
def pyRound (q : ℚ) : ℤ :=
  if q - (⌊q⌋ : ℚ) < 1/2 then ⌊q⌋
  else if 1/2 < q - (⌊q⌋ : ℚ) then ⌊q⌋ + 1
  else if ⌊q⌋ % 2 = 0 then ⌊q⌋ else ⌊q⌋ + 1

theorem pyRound_le (q : ℚ) : (pyRound q : ℚ) ≤ q + 1/2 := by
  have h1 : (⌊q⌋ : ℚ) ≤ q := Int.floor_le q
  have h2 : q < (⌊q⌋ : ℚ) + 1 := Int.lt_floor_add_one q
  unfold pyRound
  by_cases hc1 : q - (⌊q⌋ : ℚ) < 1/2
  · rw [if_pos hc1]; linarith
  · rw [if_neg hc1]
    push_neg at hc1
    by_cases hc2 : 1/2 < q - (⌊q⌋ : ℚ)
    · rw [if_pos hc2]; push_cast; linarith
    · rw [if_neg hc2]
      push_neg at hc2
      by_cases hc3 : ⌊q⌋ % 2 = 0
      · rw [if_pos hc3]; linarith
      · rw [if_neg hc3]; push_cast; linarith

theorem le_pyRound (q : ℚ) : q - 1/2 ≤ (pyRound q : ℚ) := by
  have h1 : (⌊q⌋ : ℚ) ≤ q := Int.floor_le q
  have h2 : q < (⌊q⌋ : ℚ) + 1 := Int.lt_floor_add_one q
  unfold pyRound
  by_cases hc1 : q - (⌊q⌋ : ℚ) < 1/2
  · rw [if_pos hc1]; linarith
  · rw [if_neg hc1]
    push_neg at hc1
    by_cases hc2 : 1/2 < q - (⌊q⌋ : ℚ)
    · rw [if_pos hc2]; push_cast; linarith
    · rw [if_neg hc2]
      push_neg at hc2
      by_cases hc3 : ⌊q⌋ % 2 = 0
      · rw [if_pos hc3]; linarith
      · rw [if_neg hc3]; push_cast; linarith

theorem abs_pyRound_sub_le (q : ℚ) : |(pyRound q : ℚ) - q| ≤ 1/2 := by
  have h1 := pyRound_le q
  have h2 := le_pyRound q
  rw [abs_le]
  constructor <;> linarith

/-- `trade_executor._snap_volume_units`: clamp a volume (in broker UNITS)
to `[min, max]`, snap to the step grid anchored at `min` (or 0 when min
is not positive), then re-clamp to `min`.  Faithful to the Python:
the final clamp is against `min` only, never against `max`. -/
def snapVolumeUnits (volume_units min_units max_units step_units : ℤ) : ℤ :=
  let v := volume_units
  let v1 := if 0 < min_units then max v min_units else v
  let v2 := if 0 < max_units then min v1 max_units else v1
  let v3 :=
    if 0 < step_units then
      let base := if 0 < min_units then min_units else 0
      base + pyRound (((v2 - base : ℤ) : ℚ) / (step_units : ℚ)) * step_units
    else v2
  if 0 < min_units then max v3 min_units else v3

/-- Core estimate for the snap step: the snapped value
`base + pyRound ((v2 - base)/step) * step` stays within `step/2` of `v2`. -/
theorem snap_step_close (v2 base stepU : ℤ) (hstep : 0 < stepU) :
    2 * (base + pyRound (((v2 - base : ℤ) : ℚ) / (stepU : ℚ)) * stepU) ≤ 2 * v2 + stepU := by
  have hs0 : (0 : ℚ) < (stepU : ℚ) := by exact_mod_cast hstep
  have hkq := pyRound_le (((v2 - base : ℤ) : ℚ) / (stepU : ℚ))
  have hmul := mul_le_mul_of_nonneg_right hkq (le_of_lt hs0)
  rw [add_mul, div_mul_cancel₀ _ (ne_of_gt hs0)] at hmul
  have : (2 : ℚ) * ((base : ℚ) + (pyRound (((v2 - base : ℤ) : ℚ) / (stepU : ℚ)) : ℚ) * stepU)
      ≤ 2 * (v2 : ℚ) + stepU := by push_cast; push_cast at hmul; linarith
  exact_mod_cast this

/-- When the grid from `base` reaches `maxU` exactly, the snapped value of a
clamped input does not overshoot `maxU`. -/
theorem snap_step_le_of_dvd (v2 base maxU stepU : ℤ) (hstep : 0 < stepU)
    (hv2 : v2 ≤ maxU) (hdvd : stepU ∣ (maxU - base)) :
    base + pyRound (((v2 - base : ℤ) : ℚ) / (stepU : ℚ)) * stepU ≤ maxU := by
  obtain ⟨m, hm⟩ := hdvd
  have hs0 : (0 : ℚ) < (stepU : ℚ) := by exact_mod_cast hstep
  set k := pyRound (((v2 - base : ℤ) : ℚ) / (stepU : ℚ)) with hkdef
  have hkq : (k : ℚ) ≤ ((v2 - base : ℤ) : ℚ) / (stepU : ℚ) + 1/2 := pyRound_le _
  have hdivle : ((v2 - base : ℤ) : ℚ) / (stepU : ℚ) ≤ ((maxU - base : ℤ) : ℚ) / (stepU : ℚ) := by
    apply div_le_div_of_nonneg_right _ hs0.le
    · exact_mod_cast sub_le_sub_right hv2 base
  have hmq : ((maxU - base : ℤ) : ℚ) = (stepU : ℚ) * (m : ℚ) := by exact_mod_cast hm
  have hdivm : ((maxU - base : ℤ) : ℚ) / (stepU : ℚ) = (m : ℚ) := by
    rw [hmq, mul_comm, mul_div_cancel_right₀ _ (ne_of_gt hs0)]
  have hkm : (k : ℚ) ≤ (m : ℚ) + 1/2 := by
    calc (k : ℚ) ≤ ((v2 - base : ℤ) : ℚ) / (stepU : ℚ) + 1/2 := hkq
    _ ≤ ((maxU - base : ℤ) : ℚ) / (stepU : ℚ) + 1/2 := by linarith
    _ = (m : ℚ) + 1/2 := by rw [hdivm]
  have hkm' : k ≤ m := by
    have : (k : ℚ) < (m : ℚ) + 1 := by linarith
    have h2 : k < m + 1 := by exact_mod_cast this
    omega
  have : base + k * stepU ≤ base + m * stepU := by
    have := mul_le_mul_of_nonneg_right hkm' (le_of_lt hstep)
    omega
  calc base + k * stepU ≤ base + m * stepU := this
  _ = maxU := by rw [mul_comm] at hm; omega

/-- C5 (counterexample): with `min = 1`, `step = 3`, `max = 6` (where
`max - min = 5` is not a multiple of `step`) and input volume `6`, the
quantizer returns `7`, which exceeds `max`.  The claim that the result
always satisfies `r ≤ max` is therefore false: the re-clamp after the
snap is against `min` only. -/
theorem C5_counterexample :
    snapVolumeUnits 6 1 6 3 = 7 ∧ ¬ (snapVolumeUnits 6 1 6 3 ≤ 6) := by
  have h : snapVolumeUnits 6 1 6 3 = 7 := by
    unfold snapVolumeUnits
    norm_num [pyRound]
  exact ⟨h, by rw [h]; omega⟩

/-- C5 (amended): for known specs with `0 < min`, `0 < step`, `min ≤ max`,
the snapped volume `r` satisfies `min ≤ r` and `(r - min) % step = 0`;
it satisfies `r ≤ max` whenever `max - min` is a multiple of `step`, and
in general only the weaker bound `r ≤ max + step/2` (stated integrally as
`2*r ≤ 2*max + step`): when `max - min` is not on the step grid the snap
may overshoot `max`, since the final clamp is against `min` only. -/
theorem C5_snapVolumeUnits_amended (v minU maxU stepU : ℤ)
    (hmin : 0 < minU) (hstep : 0 < stepU) (hmaxmin : minU ≤ maxU) :
    minU ≤ snapVolumeUnits v minU maxU stepU ∧
    (snapVolumeUnits v minU maxU stepU - minU) % stepU = 0 ∧
    2 * snapVolumeUnits v minU maxU stepU ≤ 2 * maxU + stepU ∧
    (stepU ∣ (maxU - minU) → snapVolumeUnits v minU maxU stepU ≤ maxU) := by
  have hmax0 : 0 < maxU := lt_of_lt_of_le hmin hmaxmin
  unfold snapVolumeUnits
  simp only [if_pos hmin, if_pos hmax0, if_pos hstep]
  set v2 := min (max v minU) maxU with hv2
  set v3 := minU + pyRound (((v2 - minU : ℤ) : ℚ) / (stepU : ℚ)) * stepU with hv3
  have hv2max : v2 ≤ maxU := min_le_right _ _
  refine ⟨le_max_right _ _, ?_, ?_, ?_⟩
  · rcases max_cases v3 minU with ⟨heq, _⟩ | ⟨heq, _⟩ <;> rw [heq]
    · rw [hv3]
      simp [Int.add_mul_emod_self_left]
    · simp
  · have hclose := snap_step_close v2 minU stepU hstep
    rcases max_cases v3 minU with ⟨heq, _⟩ | ⟨heq, _⟩ <;> rw [heq] <;> omega
  · intro hdvd
    have hle := snap_step_le_of_dvd v2 minU maxU stepU hstep hv2max hdvd
    rcases max_cases v3 minU with ⟨heq, _⟩ | ⟨heq, _⟩ <;> rw [heq] <;> omega

/-- C5 witness: concrete instantiation of the amended theorem at
`v = 250`, `min = 100`, `max = 1000`, `step = 100`. -/
theorem C5_witness :
    100 ≤ snapVolumeUnits 250 100 1000 100 ∧
    (snapVolumeUnits 250 100 1000 100 - 100) % 100 = 0 ∧
    2 * snapVolumeUnits 250 100 1000 100 ≤ 2 * 1000 + 100 ∧
    ((100 : ℤ) ∣ (1000 - 100) → snapVolumeUnits 250 100 1000 100 ≤ 1000) :=
  C5_snapVolumeUnits_amended 250 100 1000 100 (by omega) (by omega) (by omega)

/-- `CTraderClient.round_price_for_symbol` (the method the live call sites in
`trade_executor.py` and `mt5_bridge_server.py` invoke): round a price to the
symbol's digits *capped at 4*; when the symbol or its digits are unknown the
default is 4 digits (not pass-through).  `symbolDigits` is the result of the
`symbol_details` lookup. -/
def round_price_for_symbol (symbolDigits : Option ℕ) (price : ℚ) : ℚ :=
  let digits : ℕ :=
    match symbolDigits with
    | some d => min 4 d
    | none => 4
  (pyRound (price * (10 : ℚ) ^ digits) : ℚ) / (10 : ℚ) ^ digits

/-- `ctrader_symbols_impl.round_price_for_symbol` (helper-module variant,
not bound to `CTraderClient` anywhere in the sources): round to the full
symbol digits, pass the price through when the symbol/digits are unknown. -/
def round_price_for_symbol_impl (symbolDigits : Option ℕ) (price : ℚ) : ℚ :=
  match symbolDigits with
  | none => price
  | some d => (pyRound (price * (10 : ℚ) ^ d) : ℚ) / (10 : ℚ) ^ d

/-- Modelled from the spec: rounding to `d` digits "away-from-zero half-up",
used only to compare the code's behaviour against the spec's words. -/
def roundHalfAwayFromZero (q : ℚ) : ℤ :=
  if 0 ≤ q then ⌊q + 1/2⌋ else -⌊-q + 1/2⌋

/-- Modelled from the spec: a price rounded to `d` digits away-from-zero
half-up. -/
def specRoundToDigits (d : ℕ) (price : ℚ) : ℚ :=
  (roundHalfAwayFromZero (price * (10 : ℚ) ^ d) : ℚ) / (10 : ℚ) ^ d

/-- Rounding at scale `10^n` moves a rational by at most `1/(2·10^n)`. -/
theorem round_at_scale_close (n : ℕ) (p : ℚ) :
    |(pyRound (p * (10 : ℚ) ^ n) : ℚ) / (10 : ℚ) ^ n - p| ≤ 1 / (2 * 10 ^ n) := by
  have hf : (0 : ℚ) < (10 : ℚ) ^ n := pow_pos (by norm_num) n
  have h := abs_pyRound_sub_le (p * (10 : ℚ) ^ n)
  have heq : (pyRound (p * (10 : ℚ) ^ n) : ℚ) / (10 : ℚ) ^ n - p
      = ((pyRound (p * (10 : ℚ) ^ n) : ℚ) - p * (10 : ℚ) ^ n) / (10 : ℚ) ^ n := by
    field_simp
    ring
  rw [heq, abs_div, abs_of_pos hf]
  calc |(pyRound (p * (10 : ℚ) ^ n) : ℚ) - p * (10 : ℚ) ^ n| / (10 : ℚ) ^ n
      ≤ (1/2) / (10 : ℚ) ^ n := div_le_div_of_nonneg_right h hf.le
  _ = 1 / (2 * 10 ^ n) := by rw [div_div]

/-- C2 (counterexample): for a 5-digit instrument (`digits = 5`) and source
price `1.23456`, the price actually sent is `round_price_for_symbol (some 5)`,
which caps the digits at 4 and yields `1.2346`; the spec's "source price
rounded to 5 digits" is `1.23456` itself.  The two differ, and the sent price
is `4·10⁻⁵ ≥ 10⁻⁵` away from the source.  Moreover with digits unknown the
client rounds to 4 digits instead of passing the price through:
`1.00005` becomes `1.0`. -/
theorem C2_counterexample :
    round_price_for_symbol (some 5) (123456/100000) ≠
      specRoundToDigits 5 (123456/100000) ∧
    specRoundToDigits 5 (123456/100000) = 123456/100000 ∧
    |round_price_for_symbol (some 5) (123456/100000) - 123456/100000| ≥ 1/100000 ∧
    round_price_for_symbol none (100005/100000) ≠ 100005/100000 := by
  have h1 : round_price_for_symbol (some 5) (123456/100000) = 6173/5000 := by
    norm_num [round_price_for_symbol, pyRound]
  have h2 : specRoundToDigits 5 (123456/100000) = 123456/100000 := by
    norm_num [specRoundToDigits, roundHalfAwayFromZero]
  have h3 : round_price_for_symbol none (100005/100000) = 1 := by
    norm_num [round_price_for_symbol, pyRound]
  refine ⟨?_, h2, ?_, ?_⟩
  · rw [h1, h2]; norm_num
  · rw [h1]
    rw [show (6173 : ℚ)/5000 - 123456/100000 = 1/25000 by norm_num]
    rw [abs_of_pos (by norm_num : (0:ℚ) < 1/25000)]
    norm_num
  · rw [h3]; norm_num

/-- C2 (amended): the client rounds every SL/TP/stop/limit price to
`min 4 d` digits (half-to-even) when the instrument's digits `d` are known,
and to 4 digits when the symbol or its digits are unknown (no pass-through);
hence the sent price differs from the source by at most `½·10^-(min 4 d)`,
which implies the claimed bound `|sent - source| < 10⁻ᵈ` only for `d ≤ 4`.
The unbound helper-module variant (`ctrader_symbols_impl`) does pass an
unknown-digits price through unchanged. -/
theorem C2_round_price_amended (d : ℕ) (p : ℚ) :
    round_price_for_symbol (some d) p
      = (pyRound (p * (10 : ℚ) ^ (min 4 d)) : ℚ) / (10 : ℚ) ^ (min 4 d) ∧
    |round_price_for_symbol (some d) p - p| ≤ 1 / (2 * 10 ^ (min 4 d)) ∧
    (d ≤ 4 → |round_price_for_symbol (some d) p - p| < 1 / 10 ^ d) ∧
    |round_price_for_symbol none p - p| ≤ 1 / (2 * 10 ^ (4 : ℕ)) ∧
    round_price_for_symbol_impl none p = p := by
  refine ⟨rfl, round_at_scale_close _ _, ?_, round_at_scale_close _ _, rfl⟩
  intro hd
  have hmin : min 4 d = d := min_eq_right hd
  have h := round_at_scale_close (min 4 d) p
  rw [hmin] at h
  have hlt : (1 : ℚ) / (2 * 10 ^ d) < 1 / 10 ^ d := by
    apply div_lt_div_of_pos_left (by norm_num) (pow_pos (by norm_num) d)
    have : (0:ℚ) < 10 ^ d := pow_pos (by norm_num) d
    linarith
  calc |round_price_for_symbol (some d) p - p|
      ≤ 1 / (2 * 10 ^ d) := by
        have heq : round_price_for_symbol (some d) p
            = (pyRound (p * (10 : ℚ) ^ d) : ℚ) / (10 : ℚ) ^ d := by
          show (pyRound (p * (10 : ℚ) ^ (min 4 d)) : ℚ) / (10 : ℚ) ^ (min 4 d)
            = (pyRound (p * (10 : ℚ) ^ d) : ℚ) / (10 : ℚ) ^ d
          rw [hmin]
        rw [heq]
        exact h
  _ < 1 / 10 ^ d := hlt

/-- C2 witness: the amended theorem applied at `d = 2`, `p = 987654/100000`,
discharging the `d ≤ 4` hypothesis. -/
theorem C2_witness :
    |round_price_for_symbol (some 2) (987654/100000) - 987654/100000|
      < 1 / 10 ^ (2 : ℕ) :=
  (C2_round_price_amended 2 (987654/100000)).2.2.1 (by norm_num)

/-! Python string primitives, modelled on the character list so that they
evaluate by kernel reduction.  `pyInt?` models Python `int(str)` on optionally
signed decimal strings (numeric-literal underscores are not modelled; the
labels handled by the bridge never contain them inside the number). -/

/-- Python `str.upper()`. -/
def pyUpper (s : String) : String := String.mk (s.data.map Char.toUpper)

/-- Python `str.lower()`. -/
def pyLower (s : String) : String := String.mk (s.data.map Char.toLower)

/-- Python `str.startswith(p)`. -/
def pyStartsWith (s p : String) : Bool := p.data.isPrefixOf s.data

/-- Python `str.endswith(p)`. -/
def pyEndsWith (s p : String) : Bool := p.data.isSuffixOf s.data

/-- Python `len(s)` (character count). -/
def pyLen (s : String) : ℕ := s.data.length

/-- Python `s[n:]`. -/
def pyDrop (s : String) (n : ℕ) : String := String.mk (s.data.drop n)

/-- Python `s[:-n]` for `n > 0`. -/
def pyDropRight (s : String) (n : ℕ) : String := String.mk (s.data.take (s.data.length - n))

/-- Python `str.strip()`. -/
def pyTrim (s : String) : String :=
  String.mk (((s.data.dropWhile Char.isWhitespace).reverse.dropWhile Char.isWhitespace).reverse)

/-- Python `s.split(sep, 1)[0]` for a one-character separator. -/
def strBefore (sep : Char) (s : String) : String :=
  String.mk (s.data.takeWhile (fun c => c ≠ sep))

/-- Decimal digits to a natural number; `none` when empty or non-digit. -/
def digitsToNat? (cs : List Char) : Option ℕ :=
  match cs with
  | [] => none
  | _ => cs.foldl
      (fun acc c =>
        match acc with
        | none => none
        | some n => if c.isDigit then some (n * 10 + (c.toNat - 48)) else none)
      (some 0)

/-- Python `int(s)` for decimal strings (with surrounding whitespace and an
optional sign), `none` when `int` would raise `ValueError`. -/
def pyInt? (s : String) : Option ℤ :=
  match (pyTrim s).data with
  | '-' :: rest => (digitsToNat? rest).map (fun n => -(n : ℤ))
  | '+' :: rest => (digitsToNat? rest).map (fun n => (n : ℤ))
  | cs => (digitsToNat? cs).map (fun n => (n : ℤ))

/-- Association-list lookup modelling a Python dict `get` (first match). -/
def alookup {α : Type} (m : List (String × α)) (k : String) : Option α :=
  match m with
  | [] => none
  | (k', v) :: rest => if k' = k then some v else alookup rest k

/-- `SymbolMapper.COMMON_SYMBOL_IDS`: the hardcoded fallback name → id map. -/
def COMMON_SYMBOL_IDS : List (String × ℤ) :=
  [("EURUSD", 1), ("GBPUSD", 2), ("USDJPY", 3), ("USDCHF", 4), ("AUDUSD", 5),
   ("USDCAD", 6), ("NZDUSD", 7), ("EURGBP", 8), ("EURJPY", 9), ("GBPJPY", 10),
   ("EURCHF", 11), ("AUDJPY", 12), ("EURAUD", 13), ("EURCAD", 14), ("GBPCHF", 15),
   ("GBPAUD", 16), ("GBPCAD", 17), ("AUDCAD", 18), ("AUDCHF", 19), ("AUDNZD", 20),
   ("CADCHF", 21), ("CADJPY", 22), ("CHFJPY", 23), ("NZDCAD", 24), ("NZDCHF", 25),
   ("NZDJPY", 26), ("XAUUSD", 27), ("XAGUSD", 28)]

/-- `symbol_mapper.SymbolMapper` instance state.  `pre`/`suf` embed the
configured symbol prefix/suffix to strip. -/
structure SymbolMapper where
  pre : String
  suf : String
  custom_map : List (String × String)
  broker_symbol_map : List (String × ℤ)

/-- `SymbolMapper.__init__` body: normalize custom-map keys/values and broker
map keys to upper case. -/
def symbolMapperInit (p s : String) (custom : List (String × String))
    (broker : List (String × ℤ)) : SymbolMapper :=
  { pre := p
    suf := s
    custom_map := custom.map (fun kv => (pyUpper kv.1, pyUpper kv.2))
    broker_symbol_map := broker.map (fun kv => (pyUpper kv.1, kv.2)) }

/-- `SymbolMapper.mt5_to_ctrader_name`: custom-map override first, then strip
configured prefix/suffix from the upper-cased name. -/
def mt5_to_ctrader_name (m : SymbolMapper) (mt5_symbol : String) : String :=
  let raw := pyUpper mt5_symbol
  match alookup m.custom_map raw with
  | some mapped => mapped
  | none =>
    let s1 := if m.pre ≠ "" ∧ pyStartsWith raw (pyUpper m.pre) then pyDrop raw (pyLen m.pre) else raw
    let s2 := if m.suf ≠ "" ∧ pyEndsWith s1 (pyUpper m.suf) then pyDropRight s1 (pyLen m.suf) else s1
    s2

/-- `SymbolMapper.get_symbol_id`: normalized name, then the dynamic broker map
when it is non-empty, then the hardcoded `COMMON_SYMBOL_IDS` fallback. -/
def get_symbol_id (m : SymbolMapper) (mt5_symbol : String) : Option ℤ :=
  let key := pyUpper (mt5_to_ctrader_name m mt5_symbol)
  if m.broker_symbol_map ≠ [] then
    match alookup m.broker_symbol_map key with
    | some i => some i
    | none => alookup COMMON_SYMBOL_IDS key
  else alookup COMMON_SYMBOL_IDS key

/-- Python error outcomes relevant to the embedding. -/
inductive PyError
  | typeError
  | attributeError
deriving DecidableEq

/-- The methods the class `CTraderClient` itself defines (ctrader_client.py).
The helper modules `ctrader_*_impl.py` define further functions taking `self`
(`amend_position`, `send_pending_order`, `cancel_pending_order`, …) but
nothing in the sources binds them to the class, so only these names resolve
on a client instance. -/
def ctraderClientMethods : List String :=
  ["get_symbol_id_by_name", "round_price_for_symbol", "set_account_credentials",
   "connect", "set_message_callback", "authenticate_account", "send_market_order",
   "modify_position", "close_position", "run", "stop"]

/-- Python attribute lookup of a method on a `CTraderClient` instance:
`AttributeError` when the class does not define the name. -/
def clientAttr (name : String) : Except PyError String :=
  if ctraderClientMethods.contains name then Except.ok name
  else Except.error PyError.attributeError

/-- The parameter names accepted by `SymbolMapper.__init__` (besides `self`). -/
def symbolMapperInitParams : List String :=
  ["prefix", "suffix", "custom_map", "broker_symbol_map"]

/-- The keyword arguments `trade_executor._map_symbol_id` (and
`trade_processor._build_account_symbol_mapper`) pass to `SymbolMapper(...)`. -/
def mapSymbolIdCallKwargs : List String :=
  ["prefix", "suffix", "custom_map", "broker_symbol_map", "strict"]

/-- Python keyword-call rule: the call succeeds only if every keyword argument
is a parameter of the callee, otherwise `TypeError` is raised before the
callee's body runs. -/
def kwargsAccepted (params kwargs : List String) : Bool :=
  kwargs.all (fun k => params.contains k)

/-- The `SymbolMapper(prefix=…, suffix=…, custom_map=…, broker_symbol_map=…,
strict=True)` construction shared by `trade_executor._map_symbol_id` and
`trade_processor._build_account_symbol_mapper`. -/
def constructMapperStrict (p s : String) (custom : List (String × String))
    (broker : List (String × ℤ)) : Except PyError SymbolMapper :=
  if kwargsAccepted symbolMapperInitParams mapSymbolIdCallKwargs then
    .ok (symbolMapperInit p s custom broker)
  else .error .typeError

/-- `trade_executor._map_symbol_id`: build the (strict) mapper, then resolve
the symbol id; the construction's `TypeError` propagates to the caller. -/
def map_symbol_id (p s : String) (custom : List (String × String))
    (broker : List (String × ℤ)) (mt5_symbol : String) : Except PyError (Option ℤ) :=
  (constructMapperStrict p s custom broker).map (fun m => get_symbol_id m mt5_symbol)

/-- `trade_processor._get_symbol_id_for_account`: same construction and lookup
inside `try/except`, returning `None` on any exception. -/
def get_symbol_id_for_account (p s : String) (custom : List (String × String))
    (broker : List (String × ℤ)) (mt5_symbol : String) : Option ℤ :=
  match map_symbol_id p s custom broker mt5_symbol with
  | .ok r => r
  | .error _ => none

/-- Per-account configuration (`config_loader.AccountConfig` plus the runtime
counters `should_copy_trade` consults); `sym_pre`/`sym_suf` embed the
configured symbol prefix/suffix. -/
structure AccountConfig where
  account_id : ℤ
  sym_pre : String
  sym_suf : String
  custom_symbols : List (String × String)
  lot_multiplier : ℚ
  min_lot_size : ℚ
  max_lot_size : ℚ
  risk_mode : String
  reject_if_no_sl : Bool
  fixed_lot : ℚ
  source_volume_fallback : Bool
  fixed_usd_risk : ℚ
  risk_percent : ℚ
  risk_reference : String
  max_daily_trades : ℤ
  max_concurrent_positions : ℤ
  magic_numbers : Option (List ℤ)
  allowed_symbols : Option (List String)
  blocked_symbols : List String
  daily_trade_count : ℤ
  current_positions : ℤ

/-- `MultiAccountConfig.should_copy_trade`: the per-account filter chain, in
source order, returning the first failing filter's reason or `(True, "OK")`. -/
def should_copy_trade (account : AccountConfig) (symbol : String) (magic : ℤ)
    (lots : ℚ) : Bool × String :=
  if account.max_daily_trades ≤ account.daily_trade_count then
    (false, "Daily trade limit reached")
  else if account.max_concurrent_positions ≤ account.current_positions then
    (false, "Max concurrent positions reached")
  else if (match account.magic_numbers with
           | some ms => !(ms.contains magic)
           | none => false : Bool) then
    (false, "Magic number not in allowed list")
  else if account.blocked_symbols.contains (pyUpper symbol) then
    (false, "Symbol is blocked")
  else if (match account.allowed_symbols with
           | some al => !(al.contains (pyUpper symbol))
           | none => false : Bool) then
    (false, "Symbol not in allowed list")
  else if lots < account.min_lot_size then
    (false, "Lot size below minimum")
  else (true, "OK")

/-- Instrument specification (the fields of a full `ProtoOASymbol` the core
reads). -/
structure SymbolSpec where
  digits : ℕ
  pipPosition : Option ℤ
  tickValue : ℚ
  lotSize : ℤ
  minVolume : ℤ
  maxVolume : ℤ
  stepVolume : ℤ

/-- The per-account `CTraderClient` symbol state: the NAME → symbolId map and
the symbolId → full-spec map. -/
structure ClientState where
  symbol_name_to_id : List (String × ℤ)
  symbol_details : ℤ → Option SymbolSpec

/-- `trade_executor._calc_volume_units`: MT5 lots → broker units via the
symbol's `lotSize`, then snap to min/step/max; `0` when specs are missing or
invalid (the caller then skips the order). -/
def calc_volume_units (details : Option SymbolSpec) (mt5_lots : ℚ) : ℤ :=
  match details with
  | none => 0
  | some sym =>
    if sym.lotSize ≤ 0 ∨ sym.minVolume ≤ 0 ∨ sym.stepVolume ≤ 0 then 0
    else
      let raw_units := pyRound (mt5_lots * (sym.lotSize : ℚ))
      snapVolumeUnits raw_units sym.minVolume sym.maxVolume sym.stepVolume

/-- The payload of `client.send_market_order` as issued by
`copy_open_to_account` (SL/TP deliberately omitted there). -/
structure MarketOrderReq where
  account_id : ℤ
  symbol_id : ℤ
  side : String
  volume : ℤ
  sl : Option ℚ
  tp : Option ℚ
  label : String
deriving DecidableEq

/-- The payload of `client.send_pending_order` as issued by
`copy_pending_to_account`. -/
structure PendingOrderReq where
  account_id : ℤ
  symbol_id : ℤ
  side : String
  volume : ℤ
  pending_type : String
  stop_price : ℚ
  limit_price : ℚ
  sl : Option ℚ
  tp : Option ℚ
  label : String
  expiration_ms : ℤ
deriving DecidableEq

/-- `client.round_price_for_symbol` on the client state: lookup of the
symbol's digits feeding `round_price_for_symbol`. -/
def clientRoundPrice (client : ClientState) (symbol_id : ℤ) (price : ℚ) : ℚ :=
  round_price_for_symbol ((client.symbol_details symbol_id).map (·.digits)) price

/-- `trade_executor.copy_open_to_account`: map the symbol (this raises
`TypeError`, see `constructMapperStrict`), apply the filter policy, scale and
clamp the lots, convert to units, and issue the market order with label
`MT5_<ticket>` and no SL/TP.  `.ok none` models an early `return` without an
order; `.error` a propagating exception. -/
def copy_open_to_account (client : ClientState) (config : AccountConfig)
    (ticket : ℤ) (mt5_symbol side : String) (volume sl tp : ℚ) (magic : ℤ) :
    Except PyError (Option MarketOrderReq) :=
  match map_symbol_id config.sym_pre config.sym_suf config.custom_symbols
      client.symbol_name_to_id mt5_symbol with
  | .error e => .error e
  | .ok none => .ok none
  | .ok (some symbol_id) =>
    if ¬ (should_copy_trade config mt5_symbol magic volume).1 then .ok none
    else
      let adjusted_lots :=
        max config.min_lot_size (min (config.lot_multiplier * volume) config.max_lot_size)
      let volume_to_send := calc_volume_units (client.symbol_details symbol_id) adjusted_lots
      if volume_to_send ≤ 0 then .ok none
      else
        let trade_side :=
          if pyUpper side = "BUY" ∨ pyUpper side = "LONG" then "BUY" else "SELL"
        .ok (some
          { account_id := config.account_id
            symbol_id := symbol_id
            side := trade_side
            volume := volume_to_send
            sl := none
            tp := none
            label := "MT5_" ++ toString ticket })

/-- `trade_executor.copy_pending_to_account`: as `copy_open_to_account` but
issuing a pending order, with SL/TP and stop/limit prices rounded via the
client (positive values only). -/
def copy_pending_to_account (client : ClientState) (config : AccountConfig)
    (ticket : ℤ) (mt5_symbol side : String) (volume sl tp : ℚ) (magic : ℤ)
    (pending_type : String) (stop_price limit_price : ℚ) (expiration_ms : ℤ) :
    Except PyError (Option PendingOrderReq) :=
  match map_symbol_id config.sym_pre config.sym_suf config.custom_symbols
      client.symbol_name_to_id mt5_symbol with
  | .error e => .error e
  | .ok none => .ok none
  | .ok (some symbol_id) =>
    if ¬ (should_copy_trade config mt5_symbol magic volume).1 then .ok none
    else
      let adjusted_lots :=
        max config.min_lot_size (min (config.lot_multiplier * volume) config.max_lot_size)
      let volume_to_send := calc_volume_units (client.symbol_details symbol_id) adjusted_lots
      if volume_to_send ≤ 0 then .ok none
      else
        let trade_side :=
          if pyUpper side = "BUY" ∨ pyUpper side = "LONG" then "BUY" else "SELL"
        let ptype := pyLower (pyTrim pending_type)
        let sl_r := if 0 < sl then some (clientRoundPrice client symbol_id sl) else none
        let tp_r := if 0 < tp then some (clientRoundPrice client symbol_id tp) else none
        let stop_r := if 0 < stop_price then clientRoundPrice client symbol_id stop_price else 0
        let limit_r := if 0 < limit_price then clientRoundPrice client symbol_id limit_price else 0
        .ok (some
          { account_id := config.account_id
            symbol_id := symbol_id
            side := trade_side
            volume := volume_to_send
            pending_type := ptype
            stop_price := stop_r
            limit_price := limit_r
            sl := sl_r
            tp := tp_r
            label := "MT5_" ++ toString ticket
            expiration_ms := expiration_ms })

/-- C1 (confirmed): for every input, the `SymbolMapper(..., strict=True)`
construction raises `TypeError` (`strict` is not an `__init__` parameter), so
`trade_executor._map_symbol_id` errors, `copy_open_to_account` and
`copy_pending_to_account` never produce a market/pending order request, and
`trade_processor._get_symbol_id_for_account` returns `None`. -/
theorem C1_strict_kwarg_TypeError (p s : String) (custom : List (String × String))
    (broker : List (String × ℤ)) (mt5_symbol : String) (client : ClientState)
    (config : AccountConfig) (ticket : ℤ) (side : String) (volume sl tp : ℚ)
    (magic : ℤ) (pending_type : String) (stop_price limit_price : ℚ)
    (expiration_ms : ℤ) :
    map_symbol_id p s custom broker mt5_symbol = .error .typeError ∧
    copy_open_to_account client config ticket mt5_symbol side volume sl tp magic
      = .error .typeError ∧
    copy_pending_to_account client config ticket mt5_symbol side volume sl tp magic
      pending_type stop_price limit_price expiration_ms = .error .typeError ∧
    get_symbol_id_for_account p s custom broker mt5_symbol = none := by
  have hkw : kwargsAccepted symbolMapperInitParams mapSymbolIdCallKwargs = false := by decide
  have hmap : ∀ (p' s' : String) (c' : List (String × String)) (b' : List (String × ℤ))
      (sym : String), map_symbol_id p' s' c' b' sym = .error .typeError := by
    intro p' s' c' b' sym
    unfold map_symbol_id constructMapperStrict
    rw [hkw]
    rfl
  refine ⟨hmap _ _ _ _ _, ?_, ?_, ?_⟩
  · unfold copy_open_to_account
    rw [hmap]
  · unfold copy_pending_to_account
    rw [hmap]
  · unfold get_symbol_id_for_account
    rw [hmap]

/-- C3 (counterexample): with an empty dynamic broker map, `get_symbol_id`
still returns id `1` for `"EURUSD"` from the hardcoded `COMMON_SYMBOL_IDS`
fallback, although the normalized name is absent from the broker map — the
catalog does fabricate ids the broker map does not contain. -/
theorem C3_counterexample :
    get_symbol_id (symbolMapperInit "" "" [] []) "EURUSD" = some 1 ∧
    alookup (symbolMapperInit "" "" [] []).broker_symbol_map
      (pyUpper (mt5_to_ctrader_name (symbolMapperInit "" "" [] []) "EURUSD")) = none := by
  constructor <;> rfl

/-- C3 (amended): `get_symbol_id` returns `None` exactly when the normalized
upper-cased name is absent from *both* the per-account broker map and the
hardcoded `COMMON_SYMBOL_IDS` fallback; a name missing from the broker map
can still be resolved through the fallback. -/
theorem C3_get_symbol_id_amended (m : SymbolMapper) (s : String) :
    get_symbol_id m s = none ↔
      alookup m.broker_symbol_map (pyUpper (mt5_to_ctrader_name m s)) = none ∧
      alookup COMMON_SYMBOL_IDS (pyUpper (mt5_to_ctrader_name m s)) = none := by
  unfold get_symbol_id
  by_cases hb : m.broker_symbol_map ≠ []
  · rw [if_pos hb]
    cases hl : alookup m.broker_symbol_map (pyUpper (mt5_to_ctrader_name m s)) with
    | none => simp
    | some i => simp [hl]
  · rw [if_neg hb]
    push_neg at hb
    rw [hb]
    simp [alookup]

/-- C10 (confirmed): `should_copy_trade` checks, in exactly this order, the
daily trade cap, the concurrent position cap, the magic-number allowlist, the
blocked-symbols list, the allowed-symbols list and the minimum lot size; it
returns `(False, reason)` for the first failing filter and `(True, "OK")` iff
all six pass. -/
theorem C10_should_copy_trade_order (account : AccountConfig) (symbol : String)
    (magic : ℤ) (lots : ℚ) :
    (account.max_daily_trades ≤ account.daily_trade_count →
      should_copy_trade account symbol magic lots = (false, "Daily trade limit reached")) ∧
    (¬ account.max_daily_trades ≤ account.daily_trade_count →
     account.max_concurrent_positions ≤ account.current_positions →
      should_copy_trade account symbol magic lots = (false, "Max concurrent positions reached")) ∧
    (¬ account.max_daily_trades ≤ account.daily_trade_count →
     ¬ account.max_concurrent_positions ≤ account.current_positions →
     (match account.magic_numbers with
      | some ms => !(ms.contains magic)
      | none => false) = true →
      should_copy_trade account symbol magic lots = (false, "Magic number not in allowed list")) ∧
    (¬ account.max_daily_trades ≤ account.daily_trade_count →
     ¬ account.max_concurrent_positions ≤ account.current_positions →
     ¬ (match account.magic_numbers with
        | some ms => !(ms.contains magic)
        | none => false) = true →
     account.blocked_symbols.contains (pyUpper symbol) = true →
      should_copy_trade account symbol magic lots = (false, "Symbol is blocked")) ∧
    (¬ account.max_daily_trades ≤ account.daily_trade_count →
     ¬ account.max_concurrent_positions ≤ account.current_positions →
     ¬ (match account.magic_numbers with
        | some ms => !(ms.contains magic)
        | none => false) = true →
     ¬ account.blocked_symbols.contains (pyUpper symbol) = true →
     (match account.allowed_symbols with
      | some al => !(al.contains (pyUpper symbol))
      | none => false) = true →
      should_copy_trade account symbol magic lots = (false, "Symbol not in allowed list")) ∧
    (¬ account.max_daily_trades ≤ account.daily_trade_count →
     ¬ account.max_concurrent_positions ≤ account.current_positions →
     ¬ (match account.magic_numbers with
        | some ms => !(ms.contains magic)
        | none => false) = true →
     ¬ account.blocked_symbols.contains (pyUpper symbol) = true →
     ¬ (match account.allowed_symbols with
        | some al => !(al.contains (pyUpper symbol))
        | none => false) = true →
     lots < account.min_lot_size →
      should_copy_trade account symbol magic lots = (false, "Lot size below minimum")) ∧
    (should_copy_trade account symbol magic lots = (true, "OK") ↔
      (¬ account.max_daily_trades ≤ account.daily_trade_count ∧
       ¬ account.max_concurrent_positions ≤ account.current_positions ∧
       ¬ (match account.magic_numbers with
          | some ms => !(ms.contains magic)
          | none => false) = true ∧
       ¬ account.blocked_symbols.contains (pyUpper symbol) = true ∧
       ¬ (match account.allowed_symbols with
          | some al => !(al.contains (pyUpper symbol))
          | none => false) = true ∧
       ¬ lots < account.min_lot_size)) := by
  unfold should_copy_trade
  refine ⟨?_, ?_, ?_, ?_, ?_, ?_, ?_⟩
  · intro h1
    rw [if_pos h1]
  · intro h1 h2
    rw [if_neg h1, if_pos h2]
  · intro h1 h2 h3
    rw [if_neg h1, if_neg h2, if_pos h3]
  · intro h1 h2 h3 h4
    rw [if_neg h1, if_neg h2, if_neg h3, if_pos h4]
  · intro h1 h2 h3 h4 h5
    rw [if_neg h1, if_neg h2, if_neg h3, if_neg h4, if_pos h5]
  · intro h1 h2 h3 h4 h5 h6
    rw [if_neg h1, if_neg h2, if_neg h3, if_neg h4, if_neg h5, if_pos h6]
  · constructor
    · intro h
      by_cases h1 : account.max_daily_trades ≤ account.daily_trade_count
      · rw [if_pos h1] at h; simp at h
      rw [if_neg h1] at h
      by_cases h2 : account.max_concurrent_positions ≤ account.current_positions
      · rw [if_pos h2] at h; simp at h
      rw [if_neg h2] at h
      by_cases h3 : (match account.magic_numbers with
           | some ms => !(ms.contains magic)
           | none => false : Bool) = true
      · rw [if_pos h3] at h; simp at h
      rw [if_neg h3] at h
      by_cases h4 : account.blocked_symbols.contains (pyUpper symbol) = true
      · rw [if_pos h4] at h; simp at h
      rw [if_neg h4] at h
      by_cases h5 : (match account.allowed_symbols with
           | some al => !(al.contains (pyUpper symbol))
           | none => false : Bool) = true
      · rw [if_pos h5] at h; simp at h
      rw [if_neg h5] at h
      by_cases h6 : lots < account.min_lot_size
      · rw [if_pos h6] at h; simp at h
      exact ⟨h1, h2, h3, h4, h5, h6⟩
    · rintro ⟨h1, h2, h3, h4, h5, h6⟩
      rw [if_neg h1, if_neg h2, if_neg h3, if_neg h4, if_neg h5, if_neg h6]

/-- C10 witness: the filter chain at a concrete passing configuration. -/
theorem C10_witness :
    should_copy_trade
      { account_id := 7, sym_pre := "", sym_suf := "", custom_symbols := []
        lot_multiplier := 1, min_lot_size := 1/100, max_lot_size := 100
        risk_mode := "SOURCE_VOLUME", reject_if_no_sl := false, fixed_lot := 0
        source_volume_fallback := true, fixed_usd_risk := 0, risk_percent := 0
        risk_reference := "EQUITY", max_daily_trades := 1000
        max_concurrent_positions := 100, magic_numbers := none
        allowed_symbols := none, blocked_symbols := [], daily_trade_count := 0
        current_positions := 0 }
      "EURUSD" 0 (1/10) = (true, "OK") :=
  ((C10_should_copy_trade_order _ "EURUSD" 0 (1/10)).2.2.2.2.2.2).mpr
    (by refine ⟨by norm_num, by norm_num, by simp, by simp [pyUpper], by simp, by norm_num⟩)

/-- `trade_processor._risk_mode`: strip inline `;`/`#` comment fragments,
trim and upper-case; empty configured value falls back to `SOURCE_VOLUME`. -/
def configRiskMode (config : AccountConfig) : String :=
  let raw := if config.risk_mode = "" then "SOURCE_VOLUME" else config.risk_mode
  pyUpper (pyTrim (strBefore '#' (strBefore ';' raw)))

/-- `trade_processor._estimate_risk_ccy_per_1lot`: money risk per 1.0 lot
from entry/SL distance, tick size (from `pipPosition`, else `digits`) and
`tickValue`; `0` when any input is unusable.  (The Python early `return 0`
when both `pipPosition` is absent and `digits = 0` is modelled as
`tick_size = 0` flowing into the `tick_size ≤ 0` check, with the same
result.) -/
def estimate_risk_ccy_per_1lot (sym : SymbolSpec) (entry_price sl_price : ℚ) : ℚ :=
  if entry_price ≤ 0 ∨ sl_price ≤ 0 then 0
  else
    let dist := |entry_price - sl_price|
    if dist ≤ 0 then 0
    else
      let tick_size : ℚ :=
        match sym.pipPosition with
        | some pp => (10 : ℚ) ^ (-pp)
        | none => if 0 < sym.digits then (10 : ℚ) ^ (-(sym.digits : ℤ)) else 0
      if tick_size ≤ 0 then 0
      else
        let ticks := dist / tick_size
        if ticks ≤ 0 then 0
        else if sym.tickValue ≤ 0 then 0
        else ticks * sym.tickValue

/-- The normalized fields of an OPEN/PENDING_OPEN event payload that
`_resolve_open_volume_for_account` reads (`float(data.get(…, 0) or 0)`
already applied). -/
structure OpenEventData where
  volume : ℚ
  sl : ℚ
  symbol : String
  entry_price : ℚ

/-- `trade_processor._resolve_open_volume_for_account`.  `hasContext` models
`account_manager and client and account_name` all being provided;
`refAmount` the equity/balance fetched for `PERCENT_EQUITY`.  The success
decision strings elide the Python f-string number formatting. -/
def resolve_open_volume_for_account (data : OpenEventData) (config : AccountConfig)
    (hasContext : Bool) (client : ClientState) (refAmount : ℚ) :
    Option ℚ × String :=
  let src_lots := data.volume
  let sl := data.sl
  let risk_mode := configRiskMode config
  if risk_mode = "FIXED_LOT" then
    if 0 < config.fixed_lot then (some config.fixed_lot, "FIXED_LOT")
    else (some src_lots, "FIXED_LOT invalid -> SOURCE_VOLUME")
  else if ¬ (0 < sl) then
    if config.reject_if_no_sl then (none, "REJECT_NO_SL")
    else if ¬ config.source_volume_fallback then (none, "REJECT_NO_SL_FALLBACK_DISABLED")
    else (some src_lots, "NO_SL_FALLBACK_SOURCE_VOLUME")
  else if risk_mode = "FIXED_USD" ∨ risk_mode = "PERCENT_EQUITY" then
    if ¬ hasContext then (none, "REJECT_" ++ risk_mode ++ "_MISSING_CONTEXT")
    else
      match get_symbol_id_for_account config.sym_pre config.sym_suf
          config.custom_symbols client.symbol_name_to_id data.symbol with
      | none => (none, "REJECT_" ++ risk_mode ++ "_NO_SYMBOL_ID")
      | some symbol_id =>
        match client.symbol_details symbol_id with
        | none => (none, "REJECT_" ++ risk_mode ++ "_NO_SYMBOL_DETAILS")
        | some sym =>
          if ¬ (0 < data.entry_price) then
            (none, "REJECT_" ++ risk_mode ++ "_NO_ENTRY_PRICE_FROM_MT5")
          else
            let risk_per_1lot := estimate_risk_ccy_per_1lot sym data.entry_price sl
            if ¬ (0 < risk_per_1lot) then
              (none, "REJECT_" ++ risk_mode ++ "_CANNOT_PRICE_RISK")
            else if risk_mode = "FIXED_USD" then
              if ¬ (0 < config.fixed_usd_risk) then (none, "REJECT_FIXED_USD_INVALID")
              else
                let lots := config.fixed_usd_risk / risk_per_1lot
                if ¬ (0 < lots) then (none, "REJECT_" ++ risk_mode ++ "_LOTS_NONPOSITIVE")
                else (some lots, risk_mode)
            else
              if ¬ (0 < config.risk_percent) then (none, "REJECT_PERCENT_EQUITY_INVALID_PCT")
              else if ¬ (0 < refAmount) then (none, "REJECT_NO_EQUITY")
              else
                let lots := (config.risk_percent / 100) * refAmount / risk_per_1lot
                if ¬ (0 < lots) then (none, "REJECT_" ++ risk_mode ++ "_LOTS_NONPOSITIVE")
                else (some lots, risk_mode)
  else (some src_lots, risk_mode ++ "_USING_SOURCE_VOLUME_FOR_NOW")

/-- A concrete `FIXED_LOT` account with `reject_if_no_sl = True`, used to
exercise the resolver's branch order. -/
def cfgFixedLotRejectSL : AccountConfig :=
  { account_id := 1, sym_pre := "", sym_suf := "", custom_symbols := []
    lot_multiplier := 1, min_lot_size := 1/100, max_lot_size := 100
    risk_mode := "FIXED_LOT", reject_if_no_sl := true, fixed_lot := 1/2
    source_volume_fallback := false, fixed_usd_risk := 0, risk_percent := 0
    risk_reference := "EQUITY", max_daily_trades := 1000
    max_concurrent_positions := 100, magic_numbers := none
    allowed_symbols := none, blocked_symbols := [], daily_trade_count := 0
    current_positions := 0 }

/-- A concrete `FIXED_USD` account with `reject_if_no_sl = True`. -/
def cfgFixedUsdRejectSL : AccountConfig :=
  { cfgFixedLotRejectSL with
    risk_mode := "FIXED_USD"
    fixed_lot := 0
    fixed_usd_risk := 50 }

/-- An empty client symbol state. -/
def emptyClient : ClientState := { symbol_name_to_id := [], symbol_details := fun _ => none }

/-- C9 (counterexample): with `risk_mode = FIXED_LOT`, `fixed_lot = 0.5`,
`reject_if_no_sl = True` and an event with SL absent (`sl = 0`), the resolver
returns the fixed lots instead of rejecting: the `FIXED_LOT` branch returns
before the SL check, so "regardless of the configured risk mode" is false. -/
theorem C9_counterexample :
    resolve_open_volume_for_account
        { volume := 1/10, sl := 0, symbol := "EURUSD", entry_price := 0 }
        cfgFixedLotRejectSL true emptyClient 0
      = (some (1/2), "FIXED_LOT") := by
  have hrm : configRiskMode cfgFixedLotRejectSL = "FIXED_LOT" := rfl
  have hfl : (0 : ℚ) < cfgFixedLotRejectSL.fixed_lot := by norm_num [cfgFixedLotRejectSL]
  simp only [resolve_open_volume_for_account, hrm, if_pos hfl]
  simp [cfgFixedLotRejectSL]

/-- C9 (amended): for every account whose (normalized) risk mode is *not*
`FIXED_LOT`, an OPEN with SL absent is resolved exactly as the claim says:
reject when `reject_if_no_sl`, otherwise reject when `source_volume_fallback`
is disabled, otherwise fall back to the source volume.  (`FIXED_LOT` accounts
return their fixed lots before the SL check is ever reached.) -/
theorem C9_resolve_no_sl_amended (data : OpenEventData) (config : AccountConfig)
    (hasContext : Bool) (client : ClientState) (refAmount : ℚ)
    (hrm : configRiskMode config ≠ "FIXED_LOT") (hsl : ¬ (0 < data.sl)) :
    resolve_open_volume_for_account data config hasContext client refAmount =
      if config.reject_if_no_sl then (none, "REJECT_NO_SL")
      else if ¬ config.source_volume_fallback then
        (none, "REJECT_NO_SL_FALLBACK_DISABLED")
      else (some data.volume, "NO_SL_FALLBACK_SOURCE_VOLUME") := by
  simp only [resolve_open_volume_for_account]
  rw [if_neg hrm, if_pos hsl]

/-- C9 witness: the amended theorem at a concrete `FIXED_USD` account with
`reject_if_no_sl = True` and `sl = 0`: the OPEN is rejected. -/
theorem C9_witness :
    resolve_open_volume_for_account
        { volume := 1/10, sl := 0, symbol := "EURUSD", entry_price := 0 }
        cfgFixedUsdRejectSL true emptyClient 0
      = (none, "REJECT_NO_SL") := by
  have h := C9_resolve_no_sl_amended
    { volume := 1/10, sl := 0, symbol := "EURUSD", entry_price := 0 }
    cfgFixedUsdRejectSL true emptyClient 0 (by decide) (lt_irrefl 0)
  simpa [cfgFixedUsdRejectSL, cfgFixedLotRejectSL] using h

/-- `trade_processor._lots_to_ctrader_cents`: MT5 lots → underlying units →
cTrader cents-of-units. -/
def lots_to_ctrader_cents (lots mt5_contract_size : ℚ) : ℤ :=
  pyRound (lots * mt5_contract_size * 100)

/-- The close volume `handle_close_event` computes for one account and passes
as the `volume` argument of its `client.close_position(...)` call, given the
event's optional `close_lots`, the recorded `master_open_lots` (0 when
absent), the account's normalized risk mode, the follower position's known
volume and the event's `mt5_contract_size`.  `none` means no call is even
attempted for the account.  Whether the call itself succeeds is modelled by
`close_position_call` below: it never does. -/
def close_units_for_account (close_lots : Option ℚ) (master_open_lots : ℚ)
    (risk_mode : String) (follower_units : Option ℤ) (mt5_contract_size : ℚ) :
    Option ℤ :=
  let step1 : Option ℤ :=
    match close_lots, follower_units with
    | some cl, some fu =>
      if 0 < fu then
        if risk_mode ≠ "SOURCE_VOLUME" ∧ 0 < master_open_lots then
          let pct := max 0 (min 1 (cl / master_open_lots))
          some (pyRound (pct * (fu : ℚ)))
        else
          if 0 < mt5_contract_size then
            some (lots_to_ctrader_cents cl mt5_contract_size)
          else none
      else none
    | _, _ => none
  let step2 : Option ℤ :=
    match step1 with
    | some u => if u ≤ 0 then follower_units else some u
    | none => follower_units
  match step2 with
  | none => none
  | some u =>
    if u ≤ 0 then none
    else
      match follower_units with
      | some fu => if 0 < fu then some (min u fu) else some u
      | none => some u

/-- Parameters of `CTraderClient.close_position` (besides `self`). -/
def closePositionParams : List String := ["account_id", "position_id", "volume"]

/-- The keyword arguments `handle_close_event` passes to
`client.close_position`. -/
def handleCloseCallKwargs : List String :=
  ["account_id", "position_id", "volume", "symbol_id"]

/-- The `client.close_position(account_id=…, position_id=…, volume=…,
symbol_id=…)` call in `handle_close_event`: the attribute exists on
`CTraderClient`, but `symbol_id` is not a parameter of
`CTraderClient.close_position`, so the call raises `TypeError` (caught by the
per-account handler).  `.ok` would carry the volume the broker receives; it
is unreachable. -/
def close_position_call (volume : ℤ) : Except PyError ℤ :=
  match clientAttr "close_position" with
  | Except.error e => Except.error e
  | Except.ok _ =>
    if kwargsAccepted closePositionParams handleCloseCallKwargs then Except.ok volume
    else Except.error PyError.typeError

/-- One account's broker interaction in `handle_close_event`: `none` when no
close is attempted; otherwise the outcome of the `client.close_position` call
on the computed volume — which always raises `TypeError` because of the extra
`symbol_id` keyword, so no close volume ever reaches the broker. -/
def handle_close_for_account (close_lots : Option ℚ) (master_open_lots : ℚ)
    (risk_mode : String) (follower_units : Option ℤ) (mt5_contract_size : ℚ) :
    Option (Except PyError ℤ) :=
  match close_units_for_account close_lots master_open_lots risk_mode
      follower_units mt5_contract_size with
  | none => none
  | some u => some (close_position_call u)

theorem close_position_call_typeError (u : ℤ) :
    close_position_call u = Except.error PyError.typeError := rfl

/-- C4 (counterexample): a CLOSE that supplies close-lots `0.0001` with
master open lots `1`, risk mode `FIXED_LOT` and follower volume `100`
satisfies all of the claim's hypotheses, yet no close volume is sent to the
broker at all: the attempted `client.close_position` call raises `TypeError`
(the `symbol_id` keyword is not a parameter of
`CTraderClient.close_position`).  Moreover even the volume *argument* the
code computes for the call is the full `100`, not the claimed
`round(0.0001·100) = 0`. -/
theorem C4_counterexample :
    handle_close_for_account (some (1/10000)) 1 "FIXED_LOT" (some 100) 0
      = some (Except.error PyError.typeError) ∧
    close_units_for_account (some (1/10000)) 1 "FIXED_LOT" (some 100) 0
      = some 100 ∧
    pyRound (max 0 (min 1 ((1/10000 : ℚ) / 1)) * (100 : ℚ)) = 0 := by
  have h2 : close_units_for_account (some (1/10000)) 1 "FIXED_LOT" (some 100) 0
      = some 100 := by
    norm_num [close_units_for_account, pyRound]
    decide
  refine ⟨?_, h2, by norm_num [pyRound]⟩
  unfold handle_close_for_account
  rw [h2]
  rfl

/-- C4 (amended): under the claim's hypotheses no close volume is ever sent
to the broker — the `client.close_position` call always raises `TypeError`
because of its extra `symbol_id` keyword, and the per-account handler catches
it.  The volume *argument* the code computes for the attempted call is
`u = round(clamp01(close_lots/master) · v)` when `u > 0` and the *full*
follower volume `v` when `u ≤ 0` (not the claimed 0); that argument never
exceeds `v`. -/
theorem C4_close_volume_amended (cl master : ℚ) (rm : String) (v : ℤ) (cs : ℚ)
    (hrm : rm ≠ "SOURCE_VOLUME") (hm : 0 < master) (hv : 0 < v) :
    handle_close_for_account (some cl) master rm (some v) cs
      = some (Except.error PyError.typeError) ∧
    close_units_for_account (some cl) master rm (some v) cs
      = (if 0 < pyRound (max 0 (min 1 (cl / master)) * (v : ℚ))
         then some (pyRound (max 0 (min 1 (cl / master)) * (v : ℚ)))
         else some v) ∧
    pyRound (max 0 (min 1 (cl / master)) * (v : ℚ)) ≤ v := by
  have hvq : (0 : ℚ) < (v : ℚ) := by exact_mod_cast hv
  have hpct_le : max 0 (min 1 (cl / master)) ≤ 1 :=
    max_le (by norm_num) (min_le_left _ _)
  have hmul_le : max 0 (min 1 (cl / master)) * (v : ℚ) ≤ (v : ℚ) :=
    mul_le_of_le_one_left hvq.le hpct_le
  have hub : pyRound (max 0 (min 1 (cl / master)) * (v : ℚ)) ≤ v := by
    have h1 := pyRound_le (max 0 (min 1 (cl / master)) * (v : ℚ))
    have h2 : (pyRound (max 0 (min 1 (cl / master)) * (v : ℚ)) : ℚ) < (v : ℚ) + 1 := by
      linarith
    have h3 : pyRound (max 0 (min 1 (cl / master)) * (v : ℚ)) < v + 1 := by
      exact_mod_cast h2
    omega
  have hunits : close_units_for_account (some cl) master rm (some v) cs
      = (if 0 < pyRound (max 0 (min 1 (cl / master)) * (v : ℚ))
         then some (pyRound (max 0 (min 1 (cl / master)) * (v : ℚ)))
         else some v) := by
    unfold close_units_for_account
    simp only [if_pos hv, if_pos (And.intro hrm hm)]
    by_cases hu : 0 < pyRound (max 0 (min 1 (cl / master)) * (v : ℚ))
    · rw [if_pos hu]
      have hne : ¬ pyRound (max 0 (min 1 (cl / master)) * (v : ℚ)) ≤ 0 := by omega
      simp only [if_neg hne]
      rw [min_eq_left hub]
    · rw [if_neg hu]
      have hle : pyRound (max 0 (min 1 (cl / master)) * (v : ℚ)) ≤ 0 := by omega
      simp only [if_pos hle]
      have hvne : ¬ v ≤ 0 := by omega
      simp only [if_neg hvne]
      rw [min_self]
  refine ⟨?_, hunits, hub⟩
  unfold handle_close_for_account
  rw [hunits]
  by_cases hu : 0 < pyRound (max 0 (min 1 (cl / master)) * (v : ℚ))
  · rw [if_pos hu]
    rfl
  · rw [if_neg hu]
    rfl

/-- C4 witness: the amended theorem at `close_lots = 2`, `master = 1`,
`risk mode FIXED_LOT`, follower volume `100`. -/
theorem C4_witness :
    handle_close_for_account (some 2) 1 "FIXED_LOT" (some 100) 0
      = some (Except.error PyError.typeError) ∧
    close_units_for_account (some 2) 1 "FIXED_LOT" (some 100) 0
      = (if 0 < pyRound (max 0 (min 1 ((2 : ℚ) / 1)) * (100 : ℚ))
         then some (pyRound (max 0 (min 1 ((2 : ℚ) / 1)) * (100 : ℚ)))
         else some 100) ∧
    pyRound (max 0 (min 1 ((2 : ℚ) / 1)) * (100 : ℚ)) ≤ 100 :=
  C4_close_volume_amended 2 1 "FIXED_LOT" 100 0 (by decide) one_pos (by decide)

/-- The dedup key of `bridge_server._dedupe_key`: normalized
(event_type, ticket, symbol). -/
structure DedupKey where
  event_type : String
  ticket : ℤ
  symbol : String
deriving DecidableEq

/-- The dedup table `bridge_server._event_dedupe` (key → last-seen epoch ms),
modelled as a function with `Option`. -/
def DedupMap : Type := DedupKey → Option ℤ

/-- `bridge_server.DEDUPE_WINDOW_MS`. -/
def DEDUPE_WINDOW_MS : ℤ := 1500

/-- The ingress event fields `_dedupe_key` consumes, after `do_POST`'s
field-name normalization (`action`/`event` → `event_type`, defaults for
missing ticket/symbol applied). -/
structure IngressEvent where
  event_type : String
  ticket : ℤ
  symbol : String

/-- `bridge_server._dedupe_key`. -/
def dedupeKey (e : IngressEvent) : DedupKey :=
  { event_type := pyUpper e.event_type, ticket := e.ticket, symbol := e.symbol }

/-- The occasional prune inside `_should_drop_duplicate`: drop entries older
than `4 × window`.  The Python guard `len(_event_dedupe) > 2000` is modelled
by the `doPrune` flag (all claims are proved for both values). -/
def pruneEntry (doPrune : Bool) (now : ℤ) (m : DedupMap) (k : DedupKey) : Option ℤ :=
  if doPrune then
    match m k with
    | some ts => if ts < now - DEDUPE_WINDOW_MS * 4 then none else some ts
    | none => none
  else m k

/-- `bridge_server._should_drop_duplicate`: returns the drop decision and the
updated table (the timestamp is recorded only for events that are *not*
dropped). -/
def shouldDropDuplicate (doPrune : Bool) (now : ℤ) (m : DedupMap)
    (e : IngressEvent) : Bool × DedupMap :=
  let m1 : DedupMap := pruneEntry doPrune now m
  let key := dedupeKey e
  match m1 key with
  | some last =>
    if now - last < DEDUPE_WINDOW_MS then (true, m1)
    else (false, fun k => if k = key then some now else m1 k)
  | none => (false, fun k => if k = key then some now else m1 k)

/-- The observable outcome of one `MT5BridgeHandler.do_POST` on a valid JSON
body: HTTP status, the `status` field of the JSON response, whether
`process_trade_event` ran, and the dedup table left behind. -/
structure PostOutcome where
  httpStatus : ℤ
  bodyStatus : String
  processed : Bool
  table : DedupMap

/-- `do_POST` after successful JSON decoding and field normalization:
duplicates are dropped fast but still answered `200 {"status":"success"}`;
otherwise the event is processed (`procRaises` models `process_trade_event`
raising, which yields a 500). -/
def doPost (doPrune : Bool) (now : ℤ) (m : DedupMap) (e : IngressEvent)
    (procRaises : Bool) : PostOutcome :=
  let (dropped, m2) := shouldDropDuplicate doPrune now m e
  if dropped then
    { httpStatus := 200, bodyStatus := "success", processed := false, table := m2 }
  else if procRaises then
    { httpStatus := 500, bodyStatus := "error", processed := true, table := m2 }
  else
    { httpStatus := 200, bodyStatus := "success", processed := true, table := m2 }

/-- The entry the prune keeps is exactly the original one, unless the entry is
at least `4 × window` old, in which case it is removed. -/
theorem pruneEntry_cases (doPrune : Bool) (now : ℤ) (m : DedupMap) (k : DedupKey) :
    pruneEntry doPrune now m k = m k ∨
    (pruneEntry doPrune now m k = none ∧
     ∀ ts, m k = some ts → ts < now - DEDUPE_WINDOW_MS * 4) := by
  cases doPrune with
  | false => exact Or.inl rfl
  | true =>
    cases hm : m k with
    | none => exact Or.inl (by simp [pruneEntry, hm])
    | some ts =>
      by_cases hold : ts < now - DEDUPE_WINDOW_MS * 4
      · refine Or.inr ⟨by simp [pruneEntry, hm, hold], ?_⟩
        intro ts2 hts2
        injection hts2 with h
        rw [← h]
        exact hold
      · exact Or.inl (by simp [pruneEntry, hm, hold])

/-- C7 (confirmed): the ingress dedup drops an event iff the same
(event_type, ticket, symbol) key was last recorded strictly less than the
1500 ms window earlier; a dropped duplicate still gets HTTP 200 with status
"success" and no processing happens; a key last seen the full window or more
ago is never dropped (the prune only removes entries at least `4 × window`
old, which could never cause a drop anyway). -/
theorem C7_dedup_iff (doPrune : Bool) (now : ℤ) (m : DedupMap) (e : IngressEvent)
    (procRaises : Bool) :
    ((shouldDropDuplicate doPrune now m e).1 = true ↔
      (∃ last, m (dedupeKey e) = some last ∧ now - last < DEDUPE_WINDOW_MS)) ∧
    ((shouldDropDuplicate doPrune now m e).1 = true →
      (doPost doPrune now m e procRaises).httpStatus = 200 ∧
      (doPost doPrune now m e procRaises).bodyStatus = "success" ∧
      (doPost doPrune now m e procRaises).processed = false) ∧
    (∀ last, m (dedupeKey e) = some last → DEDUPE_WINDOW_MS ≤ now - last →
      (shouldDropDuplicate doPrune now m e).1 = false) := by
  have hmain : (shouldDropDuplicate doPrune now m e).1 = true ↔
      (∃ last, m (dedupeKey e) = some last ∧ now - last < DEDUPE_WINDOW_MS) := by
    simp only [shouldDropDuplicate]
    rcases pruneEntry_cases doPrune now m (dedupeKey e) with hpk | ⟨hpk, hall⟩
    · rw [hpk]
      cases hm : m (dedupeKey e) with
      | none => simp
      | some last =>
        by_cases hlt : now - last < DEDUPE_WINDOW_MS
        · simp [hlt]
        · simp [hlt]
    · rw [hpk]
      constructor
      · intro h
        exact Bool.noConfusion h
      · rintro ⟨l, hl, hlt⟩
        have := hall l hl
        have hw : DEDUPE_WINDOW_MS = 1500 := rfl
        omega
  refine ⟨hmain, ?_, ?_⟩
  · intro hdrop
    unfold doPost
    rcases hsd : shouldDropDuplicate doPrune now m e with ⟨dropped, m2⟩
    rw [hsd] at hdrop
    have hd : dropped = true := hdrop
    subst hd
    simp
  · intro last hl hge
    by_contra hne
    have htrue : (shouldDropDuplicate doPrune now m e).1 = true := by
      cases h : (shouldDropDuplicate doPrune now m e).1 with
      | true => rfl
      | false => exact absurd h hne
    obtain ⟨l, hl2, hlt⟩ := hmain.mp htrue
    rw [hl] at hl2
    cases hl2
    omega

/-- An entry of the process-wide `PENDING_SLTP` store (ticket → payload). -/
structure SltpPayload where
  symbol : String
  sl : ℚ
  tp : ℚ
deriving DecidableEq

/-- An amend-SL/TP request as issued by `try_apply_pending_sltp` via
`client.amend_position` (the `account_id`/`symbol_id` arguments are not
modelled; per C1 the `symbol_id` passed is always `None`). -/
structure AmendReq where
  account : String
  ticket : ℤ
  position_id : ℤ
  stop_loss : Option ℚ
  take_profit : Option ℚ
deriving DecidableEq

/-- `tradeData` of an execution-event order/position: label and optional
volume. -/
structure TradeData where
  label : String
  volume : Option ℤ
deriving DecidableEq

/-- A position carried by a push message. -/
structure PositionMsg where
  positionId : ℤ
  tradeData : Option TradeData
  volume : Option ℤ
deriving DecidableEq

/-- An order carried by an execution event. -/
structure OrderMsg where
  orderId : ℤ
  tradeData : Option TradeData
deriving DecidableEq

/-- A `ProtoOAExecutionEvent` as read by `AccountManager.on_message`. -/
structure ExecEvent where
  order : Option OrderMsg
  position : Option PositionMsg
deriving DecidableEq

/-- The mutable state `on_message` and the trade processor share: the
process-wide `PENDING_SLTP` store and the per-account
ticket→positionId / positionId→volume / ticket→orderId maps. -/
structure CopyState where
  pendingSltp : ℤ → Option SltpPayload
  posMap : String → ℤ → Option ℤ
  volMap : String → ℤ → Option ℤ
  orderMap : String → ℤ → Option ℤ

/-- Point update of a per-account map. -/
def update2 (m : String → ℤ → Option ℤ) (a : String) (k : ℤ) (v : ℤ) :
    String → ℤ → Option ℤ :=
  fun a' k' => if a' = a ∧ k' = k then some v else m a' k'

/-- `AccountManager._extract_position_label` / `_extract_order_label`:
the `tradeData.label`, or `""` when `tradeData` is absent. -/
def extractLabel (td : Option TradeData) : String :=
  match td with
  | some td => td.label
  | none => ""

/-- `AccountManager._label_to_ticket`: parse `MT5_<ticket>`. -/
def labelToTicket (label : String) : Option ℤ :=
  if pyStartsWith label "MT5_" then pyInt? (pyDrop label 4) else none

/-- `AccountManager._extract_position_volume`: `tradeData.volume` when
positive, else the position's own `volume` when positive, else 0. -/
def extract_position_volume (p : PositionMsg) : ℤ :=
  let fromPos : ℤ :=
    match p.volume with
    | some v => if 0 < v then v else 0
    | none => 0
  match p.tradeData with
  | some td =>
    match td.volume with
    | some v => if 0 < v then v else fromPos
    | none => fromPos
  | none => fromPos

/-- The `client.amend_position(...)` call attempted by
`try_apply_pending_sltp` and `handle_modify_event`: `CTraderClient` defines
no `amend_position` method (only `modify_position`; the
`ctrader_trading_impl.amend_position` helper is never imported or bound), so
the attribute access raises `AttributeError` before any request is built.
`.ok` would carry the issued amend request; it is unreachable. -/
def amend_position_call (req : AmendReq) : Except PyError AmendReq :=
  match clientAttr "amend_position" with
  | Except.error e => Except.error e
  | Except.ok _ => Except.ok req

/-- `trade_processor.try_apply_pending_sltp`: when a deferred payload exists
for the ticket and the account knows a (truthy) position id, attempt the
amend via `client.amend_position` and delete the process-wide entry on
success.  The attribute access raises `AttributeError`
(`amend_position_call` always errors), the surrounding `try/except` catches
it, and the `del PENDING_SLTP[ticket]` after the call never runs: no amend is
ever issued and the entry survives. -/
def try_apply_pending_sltp (a : String) (ticket : ℤ) (s : CopyState) :
    CopyState × List AmendReq :=
  match s.pendingSltp ticket with
  | none => (s, [])
  | some payload =>
    match s.posMap a ticket with
    | none => (s, [])
    | some position_id =>
      if position_id = 0 then (s, [])
      else
        match amend_position_call
            { account := a
              ticket := ticket
              position_id := position_id
              stop_loss := if 0 < payload.sl then some payload.sl else none
              take_profit := if 0 < payload.tp then some payload.tp else none } with
        | Except.error _ => (s, [])
        | Except.ok req =>
          ({ s with pendingSltp := fun t => if t = ticket then none else s.pendingSltp t },
           [req])

/-- `trade_processor.notify_position_update` (client and config both
resolvable): delegates to `try_apply_pending_sltp`. -/
def notify_position_update (a : String) (ticket : ℤ) (s : CopyState) :
    CopyState × List AmendReq :=
  try_apply_pending_sltp a ticket s

/-- The order block of the execution-event branch of
`AccountManager.add_account.on_message`: record ticket→orderId when the
event's order carries a parsable `MT5_<ticket>` label and a truthy order id. -/
def record_order_mapping (a : String) (ev : ExecEvent) (s : CopyState) : CopyState :=
  match ev.order with
  | none => s
  | some o =>
    match labelToTicket (extractLabel o.tradeData) with
    | some oticket =>
      if o.orderId ≠ 0 then { s with orderMap := update2 s.orderMap a oticket o.orderId }
      else s
    | none => s

/-- The position block of the execution-event branch of `on_message`:
record ticket→positionId and trigger the deferred-SL/TP flush
(`notify_position_update`), then record the position volume when positive. -/
def position_part (a : String) (p : PositionMsg) (s1 : CopyState) :
    CopyState × List AmendReq :=
  let position_id := p.positionId
  let (s2, amends) :=
    match labelToTicket (extractLabel p.tradeData) with
    | some ticket =>
      if position_id ≠ 0 then
        notify_position_update a ticket
          { s1 with posMap := update2 s1.posMap a ticket position_id }
      else (s1, [])
    | none => (s1, [])
  let vol := extract_position_volume p
  if position_id ≠ 0 ∧ 0 < vol then
    ({ s2 with volMap := update2 s2.volMap a position_id vol }, amends)
  else (s2, amends)

/-- The execution-event branch of `AccountManager.add_account.on_message` for
account `a`: the order block, then the position block. -/
def on_execution_event (a : String) (ev : ExecEvent) (s : CopyState) :
    CopyState × List AmendReq :=
  let s1 := record_order_mapping a ev s
  match ev.position with
  | none => (s1, [])
  | some p => position_part a p s1

/-- A sequence of execution events (each tagged with the receiving account),
processed in arrival order; the issued amend requests are concatenated. -/
def run_exec_events (s : CopyState) (evs : List (String × ExecEvent)) :
    CopyState × List AmendReq :=
  match evs with
  | [] => (s, [])
  | (a, ev) :: rest =>
    let (s1, amends) := on_execution_event a ev s
    let (s2, amends2) := run_exec_events s1 rest
    (s2, amends ++ amends2)

/-- The number of amend requests for a given ticket in a batch. -/
def countTicket (t : ℤ) (amends : List AmendReq) : ℕ :=
  (amends.filter (fun am => am.ticket = t)).length

theorem countTicket_nil (t : ℤ) : countTicket t [] = 0 := rfl

theorem countTicket_append (t : ℤ) (l1 l2 : List AmendReq) :
    countTicket t (l1 ++ l2) = countTicket t l1 + countTicket t l2 := by
  simp [countTicket, List.filter_append]

theorem countTicket_singleton (t : ℤ) (am : AmendReq) :
    countTicket t [am] = if am.ticket = t then 1 else 0 := by
  by_cases h : am.ticket = t <;> simp [countTicket, h]

/-- In this codebase `try_apply_pending_sltp` is a no-op on the state and
issues no amend: every path either returns early or hits the
`AttributeError` of the missing `client.amend_position`. -/
theorem try_apply_noop (a : String) (ticket : ℤ) (s : CopyState) :
    try_apply_pending_sltp a ticket s = (s, []) := by
  unfold try_apply_pending_sltp
  cases hp : s.pendingSltp ticket with
  | none => rfl
  | some payload =>
    cases hq : s.posMap a ticket with
    | none => rfl
    | some pid =>
      by_cases hz : pid = 0
      · dsimp only
        rw [if_pos hz]
      · dsimp only
        rw [if_neg hz]
        rfl

theorem try_apply_spec (a : String) (ticket : ℤ) (s : CopyState) (t : ℤ) :
    (try_apply_pending_sltp a ticket s).1.posMap = s.posMap ∧
    (try_apply_pending_sltp a ticket s).1.volMap = s.volMap ∧
    (try_apply_pending_sltp a ticket s).1.orderMap = s.orderMap ∧
    (s.pendingSltp t = none → (try_apply_pending_sltp a ticket s).1.pendingSltp t = none) ∧
    countTicket t (try_apply_pending_sltp a ticket s).2 ≤ 1 ∧
    (1 ≤ countTicket t (try_apply_pending_sltp a ticket s).2 →
      s.pendingSltp t ≠ none ∧ (try_apply_pending_sltp a ticket s).1.pendingSltp t = none) := by
  rw [try_apply_noop]
  refine ⟨rfl, rfl, rfl, fun h => h, by simp [countTicket_nil], ?_⟩
  intro h
  simp [countTicket_nil] at h

/-- The order block never touches `PENDING_SLTP`, the position map or the
volume map. -/
theorem record_order_mapping_maps (a : String) (ev : ExecEvent) (s : CopyState) :
    (record_order_mapping a ev s).pendingSltp = s.pendingSltp ∧
    (record_order_mapping a ev s).posMap = s.posMap ∧
    (record_order_mapping a ev s).volMap = s.volMap := by
  unfold record_order_mapping
  cases ho : ev.order with
  | none => exact ⟨rfl, rfl, rfl⟩
  | some o =>
    dsimp only
    cases hl : labelToTicket (extractLabel o.tradeData) with
    | none => exact ⟨rfl, rfl, rfl⟩
    | some oticket =>
      by_cases hz : o.orderId ≠ 0
      · dsimp only
        rw [if_pos hz]
        exact ⟨rfl, rfl, rfl⟩
      · dsimp only
        rw [if_neg hz]
        exact ⟨rfl, rfl, rfl⟩

/-- Deferred-SL/TP behaviour of the position block: the pending entry is
never (re-)created, at most one amend is emitted per ticket, and an emitted
amend for `t` implies the entry existed before the block and is deleted
after it. -/
theorem position_part_spec (a : String) (p : PositionMsg) (s1 : CopyState) (t : ℤ) :
    (s1.pendingSltp t = none → (position_part a p s1).1.pendingSltp t = none) ∧
    countTicket t (position_part a p s1).2 ≤ 1 ∧
    (1 ≤ countTicket t (position_part a p s1).2 →
      s1.pendingSltp t ≠ none ∧ (position_part a p s1).1.pendingSltp t = none) := by
  unfold position_part
  cases hl : labelToTicket (extractLabel p.tradeData) with
  | none =>
    dsimp only
    by_cases hc : p.positionId ≠ 0 ∧ 0 < extract_position_volume p
    · rw [if_pos hc]
      refine ⟨fun h => h, by simp [countTicket_nil], ?_⟩
      intro h
      simp [countTicket_nil] at h
    · rw [if_neg hc]
      refine ⟨fun h => h, by simp [countTicket_nil], ?_⟩
      intro h
      simp [countTicket_nil] at h
  | some ticket =>
    dsimp only
    by_cases hz : p.positionId ≠ 0
    · rw [if_pos hz]
      rcases hna : notify_position_update a ticket
          { s1 with posMap := update2 s1.posMap a ticket p.positionId } with ⟨s2, ams⟩
      have hspec := try_apply_spec a ticket
        { s1 with posMap := update2 s1.posMap a ticket p.positionId } t
      rw [show try_apply_pending_sltp a ticket
          { s1 with posMap := update2 s1.posMap a ticket p.positionId } = (s2, ams) from hna]
        at hspec
      dsimp only
      obtain ⟨-, -, -, hmono, hcle, himp⟩ := hspec
      by_cases hc : p.positionId ≠ 0 ∧ 0 < extract_position_volume p
      · rw [if_pos hc]
        exact ⟨fun h => hmono h, hcle, fun h => himp h⟩
      · rw [if_neg hc]
        exact ⟨fun h => hmono h, hcle, fun h => himp h⟩
    · rw [if_neg hz]
      dsimp only
      by_cases hc : p.positionId ≠ 0 ∧ 0 < extract_position_volume p
      · rw [if_pos hc]
        refine ⟨fun h => h, by simp [countTicket_nil], ?_⟩
        intro h
        simp [countTicket_nil] at h
      · rw [if_neg hc]
        refine ⟨fun h => h, by simp [countTicket_nil], ?_⟩
        intro h
        simp [countTicket_nil] at h

/-- Deferred-SL/TP behaviour of one full execution event. -/
theorem exec_step_spec (a : String) (ev : ExecEvent) (s : CopyState) (t : ℤ) :
    (s.pendingSltp t = none → (on_execution_event a ev s).1.pendingSltp t = none) ∧
    countTicket t (on_execution_event a ev s).2 ≤ 1 ∧
    (1 ≤ countTicket t (on_execution_event a ev s).2 →
      s.pendingSltp t ≠ none ∧ (on_execution_event a ev s).1.pendingSltp t = none) := by
  unfold on_execution_event
  obtain ⟨hpend, -, -⟩ := record_order_mapping_maps a ev s
  cases hp : ev.position with
  | none =>
    dsimp only
    refine ⟨fun h => by rw [hpend]; exact h, by simp [countTicket_nil], ?_⟩
    intro h
    simp [countTicket_nil] at h
  | some p =>
    dsimp only
    obtain ⟨hmono, hcle, himp⟩ := position_part_spec a p (record_order_mapping a ev s) t
    refine ⟨fun h => hmono (by rw [hpend]; exact h), hcle, fun h => ?_⟩
    obtain ⟨h1, h2⟩ := himp h
    rw [hpend] at h1
    exact ⟨h1, h2⟩

/-- Trace invariant: a run of execution events emits at most as many amends
for ticket `t` as there are pending entries for `t` at the start (0 or 1). -/
theorem run_count_le (t : ℤ) (evs : List (String × ExecEvent)) :
    ∀ s : CopyState, countTicket t (run_exec_events s evs).2
      ≤ (if s.pendingSltp t = none then 0 else 1) := by
  induction evs with
  | nil =>
    intro s
    simp [run_exec_events, countTicket_nil]
  | cons head rest ih =>
    intro s
    obtain ⟨a, ev⟩ := head
    rcases hstep : on_execution_event a ev s with ⟨s1, ams⟩
    rcases hrest : run_exec_events s1 rest with ⟨s2, ams2⟩
    have hrun : run_exec_events s ((a, ev) :: rest) = (s2, ams ++ ams2) := by
      unfold run_exec_events
      rw [hstep]
      dsimp only
      rw [hrest]
    rw [hrun]
    dsimp only
    rw [countTicket_append]
    have hihs1 := ih s1
    rw [hrest] at hihs1
    have hspec := exec_step_spec a ev s t
    rw [hstep] at hspec
    dsimp only at hspec hihs1
    obtain ⟨hmono, hcle, himp⟩ := hspec
    by_cases hw : s.pendingSltp t = none
    · have hc1 : countTicket t ams = 0 := by
        by_contra hne
        exact (himp (Nat.one_le_iff_ne_zero.mpr hne)).1 hw
      have hs1n : s1.pendingSltp t = none := hmono hw
      rw [if_pos hw]
      rw [if_pos hs1n] at hihs1
      omega
    · rw [if_neg hw]
      by_cases hc : 1 ≤ countTicket t ams
      · have hafter := (himp hc).2
        rw [if_pos hafter] at hihs1
        omega
      · have hle1 : countTicket t ams2 ≤ 1 := by
          rcases hihs1' : s1.pendingSltp t with _ | _
          · rw [if_pos hihs1'] at hihs1
            omega
          · rw [if_neg (by rw [hihs1']; simp)] at hihs1
            omega
        omega

/-- The position block records the ticket→positionId correlation and (when
positive) the positionId→volume entry. -/
theorem position_part_records (a : String) (p : PositionMsg) (s1 : CopyState) (t : ℤ)
    (hlab : labelToTicket (extractLabel p.tradeData) = some t)
    (hpid : p.positionId ≠ 0) :
    (position_part a p s1).1.posMap a t = some p.positionId ∧
    (0 < extract_position_volume p →
      (position_part a p s1).1.volMap a p.positionId = some (extract_position_volume p)) := by
  unfold position_part
  rw [hlab]
  dsimp only
  rw [if_pos hpid]
  rcases hna : notify_position_update a t
      { s1 with posMap := update2 s1.posMap a t p.positionId } with ⟨s2, ams⟩
  have hspec := try_apply_spec a t
    { s1 with posMap := update2 s1.posMap a t p.positionId } t
  rw [show try_apply_pending_sltp a t
      { s1 with posMap := update2 s1.posMap a t p.positionId } = (s2, ams) from hna]
    at hspec
  dsimp only at hspec ⊢
  obtain ⟨hpos2, hvol2, -, -, -, -⟩ := hspec
  by_cases hvol : 0 < extract_position_volume p
  · rw [if_pos (And.intro hpid hvol)]
    constructor
    · dsimp only
      rw [hpos2]
      simp [update2]
    · intro _
      dsimp only
      simp [update2]
  · rw [if_neg (fun hc => hvol hc.2)]
    refine ⟨?_, fun h => absurd h hvol⟩
    rw [hpos2]
    simp [update2]

/-- C8 (confirmed): an execution event whose position carries the label
`MT5_<t>` and a non-zero position id `p`, observed on account `A`, leaves the
correlation store with `get_position_id(A, t) = p`, and when the position
carries a positive volume the per-account volume map sends `p` to it. -/
theorem C8_execution_event_records (a : String) (ev : ExecEvent) (p : PositionMsg)
    (t : ℤ) (s : CopyState)
    (hpos : ev.position = some p)
    (hlab : labelToTicket (extractLabel p.tradeData) = some t)
    (hpid : p.positionId ≠ 0) :
    (on_execution_event a ev s).1.posMap a t = some p.positionId ∧
    (0 < extract_position_volume p →
      (on_execution_event a ev s).1.volMap a p.positionId
        = some (extract_position_volume p)) := by
  unfold on_execution_event
  rw [hpos]
  exact position_part_records a p (record_order_mapping a ev s) t hlab hpid

/-- The position block issues no amend and leaves `PENDING_SLTP` untouched:
its only interaction with the deferred store is `notify_position_update`,
whose `client.amend_position` attribute access always raises. -/
theorem position_part_no_amends (a : String) (p : PositionMsg) (s1 : CopyState) :
    (position_part a p s1).2 = [] ∧
    (position_part a p s1).1.pendingSltp = s1.pendingSltp := by
  unfold position_part
  cases hl : labelToTicket (extractLabel p.tradeData) with
  | none =>
    dsimp only
    by_cases hc : p.positionId ≠ 0 ∧ 0 < extract_position_volume p
    · rw [if_pos hc]
      exact ⟨rfl, rfl⟩
    · rw [if_neg hc]
      exact ⟨rfl, rfl⟩
  | some ticket =>
    dsimp only
    by_cases hz : p.positionId ≠ 0
    · rw [if_pos hz]
      rw [show notify_position_update a ticket
          { s1 with posMap := update2 s1.posMap a ticket p.positionId }
          = ({ s1 with posMap := update2 s1.posMap a ticket p.positionId }, [])
          from try_apply_noop a ticket _]
      dsimp only
      by_cases hc : p.positionId ≠ 0 ∧ 0 < extract_position_volume p
      · rw [if_pos hc]
        exact ⟨rfl, rfl⟩
      · rw [if_neg hc]
        exact ⟨rfl, rfl⟩
    · rw [if_neg hz]
      dsimp only
      by_cases hc : p.positionId ≠ 0 ∧ 0 < extract_position_volume p
      · rw [if_pos hc]
        exact ⟨rfl, rfl⟩
      · rw [if_neg hc]
        exact ⟨rfl, rfl⟩

/-- One execution event issues no amend and leaves `PENDING_SLTP` untouched. -/
theorem exec_no_amends (a : String) (ev : ExecEvent) (s : CopyState) :
    (on_execution_event a ev s).2 = [] ∧
    (on_execution_event a ev s).1.pendingSltp = s.pendingSltp := by
  unfold on_execution_event
  have hs1 := (record_order_mapping_maps a ev s).1
  cases hp : ev.position with
  | none =>
    dsimp only
    exact ⟨rfl, hs1⟩
  | some p =>
    dsimp only
    obtain ⟨h1, h2⟩ := position_part_no_amends a p (record_order_mapping a ev s)
    exact ⟨h1, by rw [h2, hs1]⟩

/-- C6 (amended): the deferred-SL/TP flush never issues an amend at all:
`client.amend_position` does not exist on `CTraderClient`
(`ctrader_trading_impl` is never bound), so each `try_apply_pending_sltp`
attempt raises `AttributeError`, is caught, and leaves the staged entry in
place.  Over any sequence of execution events across any accounts, zero
amend-SL/TP requests are issued and the process-wide `PENDING_SLTP` store is
unchanged; in particular the claimed at-most-once bound per
(account, ticket, payload) holds vacuously. -/
theorem C6_deferred_sltp_amended (s : CopyState) (evs : List (String × ExecEvent)) :
    (run_exec_events s evs).2 = [] ∧
    (run_exec_events s evs).1.pendingSltp = s.pendingSltp := by
  induction evs generalizing s with
  | nil => exact ⟨rfl, rfl⟩
  | cons head rest ih =>
    obtain ⟨a, ev⟩ := head
    rcases hstep : on_execution_event a ev s with ⟨s1, ams⟩
    rcases hrest : run_exec_events s1 rest with ⟨s2, ams2⟩
    have hrun : run_exec_events s ((a, ev) :: rest) = (s2, ams ++ ams2) := by
      unfold run_exec_events
      rw [hstep]
      dsimp only
      rw [hrest]
    have hex := exec_no_amends a ev s
    rw [hstep] at hex
    have hih := ih s1
    rw [hrest] at hih
    rw [hrun]
    dsimp only at hex hih ⊢
    refine ⟨?_, ?_⟩
    · rw [hex.1, hih.1]
      rfl
    · rw [hih.2, hex.2]

/-- Process-wide state staging a deferred SL/TP payload for ticket 1001. -/
def c6State : CopyState :=
  { pendingSltp := fun t =>
      if t = 1001 then some { symbol := "EURUSD", sl := 1, tp := 0 } else none
    posMap := fun _ _ => none
    volMap := fun _ _ => none
    orderMap := fun _ _ => none }

/-- Account A's fill for ticket 1001 (position 555). -/
def c6EventA : ExecEvent :=
  { order := none
    position := some
      { positionId := 555
        tradeData := some { label := "MT5_1001", volume := some 100 }
        volume := none } }

/-- Account B's fill for the same ticket 1001 (position 777). -/
def c6EventB : ExecEvent :=
  { order := none
    position := some
      { positionId := 777
        tradeData := some { label := "MT5_1001", volume := some 100 }
        volume := none } }

/-- C6 (counterexample): with the payload staged for ticket 1001 and both
enabled accounts A and B receiving execution events linking 1001 one after
the other, ZERO amend-SL/TP requests are issued (in particular none to A or
B), and the staged entry is still present afterwards — refuting both the
claimed per-account exactly-once delivery and the entry's deletion. -/
theorem C6_counterexample :
    (run_exec_events c6State [("A", c6EventA), ("B", c6EventB)]).2 = [] ∧
    (run_exec_events c6State [("A", c6EventA), ("B", c6EventB)]).1.pendingSltp 1001
      = some { symbol := "EURUSD", sl := 1, tp := 0 } := by
  constructor <;> decide

/-- C8 witness: the execution-event theorem at account A's concrete fill. -/
theorem C8_witness :
    (on_execution_event "A" c6EventA c6State).1.posMap "A" 1001 = some 555 ∧
    (0 < extract_position_volume
        { positionId := 555
          tradeData := some { label := "MT5_1001", volume := some 100 }
          volume := none } →
      (on_execution_event "A" c6EventA c6State).1.volMap "A" 555
        = some (extract_position_volume
            { positionId := 555
              tradeData := some { label := "MT5_1001", volume := some 100 }
              volume := none })) := by
  have h := C8_execution_event_records "A" c6EventA
    { positionId := 555
      tradeData := some { label := "MT5_1001", volume := some 100 }
      volume := none }
    1001 c6State rfl (by decide) (by decide)
  exact ⟨h.1, h.2⟩

/-- C7 witness: an event whose key was last recorded exactly one full window
(1500 ms) earlier is not dropped. -/
theorem C7_witness :
    (shouldDropDuplicate false 10000
      (fun k => if k = { event_type := "OPEN", ticket := 1001, symbol := "EURUSD" }
                then some 8500 else none)
      { event_type := "OPEN", ticket := 1001, symbol := "EURUSD" }).1 = false :=
  (C7_dedup_iff false 10000
      (fun k => if k = { event_type := "OPEN", ticket := 1001, symbol := "EURUSD" }
                then some 8500 else none)
      { event_type := "OPEN", ticket := 1001, symbol := "EURUSD" } false).2.2
    8500 (by decide) (by decide)

end Bridge
